import Mathlib

/-!
Shallow embedding of the erg-room presence-tracking core.

Tables of the SQLite store (`src/app/models.py`) are modelled as
association lists keyed by the member / tag identifier; the scan log is a
plain append-only list.  Timestamps are integers (seconds); SQL `NULL`
timestamps are `Option.none`.  The in-memory scanner state
(`src/app/rfid_scanner.py`): debounce map, last-scan cache, rolling
history and the registration-mode flag are fields of `ScannerState`.
Device interactions (the RFID write, the minted identifier) are
parameters of the functions that perform them.
-/

namespace ErgRoom

/-- Constants from `src/app/config.py`. -/
def DEBOUNCE_SECONDS : Int := 5

def AUTO_CHECKOUT_HOURS : Int := 5

def MAX_HISTORY : Nat := 10

/-- A row of the `members` table (`src/app/models.py`, `init_db`). -/
structure MemberRow where
  name : String
  profilePicture : Option String
  rowingCategory : Option String
  boatClass : Option String
  totalSeconds : Int
  passkey : Option String
deriving Repr, DecidableEq

/-- A row of the `presence` table. -/
structure PresenceRow where
  isPresent : Bool
  lastScan : Option Int
  checkedInAt : Option Int
deriving Repr, DecidableEq

/-- A row of the append-only `scan_log` table. -/
structure ScanLogEntry where
  memberId : String
  action : String
  scannedAt : Int
deriving Repr, DecidableEq

/-- The persistent store: four tables keyed as in the SQLite schema. -/
structure DB where
  members : List (String × MemberRow)
  presence : List (String × PresenceRow)
  scanLog : List ScanLogEntry
  pendingTags : List String
deriving Repr, DecidableEq

/-- Evaluation of `SELECT ... WHERE key = ?` on a table keyed by a string primary key. -/
def lookup {α : Type} (t : List (String × α)) (k : String) : Option α :=
  match t with
  | [] => none
  | r :: rest => if r.1 == k then some r.2 else lookup rest k

/-- Evaluation of `UPDATE t SET v = g key v` applied to every row (SQL `UPDATE` without
a `WHERE` restriction beyond what `g` itself tests). -/
def mapVals {α : Type} (t : List (String × α)) (g : String → α → α) :
    List (String × α) :=
  t.map (fun r => (r.1, g r.1 r.2))

/-- Evaluation of `UPDATE t SET v = f v WHERE key = k`. -/
def updTable {α : Type} (t : List (String × α)) (k : String) (f : α → α) :
    List (String × α) :=
  mapVals t (fun k' v => if k' == k then f v else v)

/-- The dict returned by a successful `toggle_presence`. -/
structure ToggleResult where
  id : String
  name : String
  profilePicture : Option String
  isPresent : Bool
  action : String
deriving Repr, DecidableEq

/-- Model of `toggle_presence` (`src/app/models.py` lines 209-263): join members
and presence on the id, flip `is_present`; on check-in set both
timestamps to `now`; on check-out add the session seconds (guarded on a
non-null `checked_in_at`) and clear `checked_in_at`; append a scan-log
entry; return the new status.  Returns `none` when the join finds no
row. -/
def toggle_presence (db : DB) (memberId : String) (now : Int) :
    Option ToggleResult × DB :=
  match lookup db.members memberId, lookup db.presence memberId with
  | some m, some p =>
    let newStatus := !p.isPresent
    let action := if newStatus then "in" else "out"
    let db1 :=
      if newStatus then
        { db with presence := (updTable db.presence memberId
            (fun _ => ⟨true, some now, some now⟩)) }
      else
        let db0 :=
          match p.checkedInAt with
          | some checkedIn =>
            { db with members := (updTable db.members memberId
                (fun mr => { mr with totalSeconds := mr.totalSeconds + (now - checkedIn) })) }
          | none => db
        { db0 with presence := (updTable db0.presence memberId
            (fun _ => ⟨false, some now, none⟩)) }
    let db2 := { db1 with scanLog := db1.scanLog ++ [⟨memberId, action, now⟩] }
    (some ⟨memberId, m.name, m.profilePicture, newStatus, action⟩, db2)
  | _, _ => (none, db)

/-- Whether a presence row qualifies for the stale sweep:
`is_present = 1 AND checked_in_at < cutoff` (a SQL `NULL` compares
false). -/
def staleRow (p : PresenceRow) (cutoff : Int) : Bool :=
  p.isPresent &&
    (match p.checkedInAt with
     | some t => decide (t < cutoff)
     | none => false)

/-- Model of `auto_checkout_stale` (`src/app/models.py` lines 326-342): select the
stale presence rows, then clear `is_present` and `checked_in_at` on
exactly those rows; return how many were selected. -/
def auto_checkout_stale (db : DB) (now : Int) : Nat × DB :=
  let cutoff := now - AUTO_CHECKOUT_HOURS * 3600
  let stale := db.presence.filter (fun r => staleRow r.2 cutoff)
  (stale.length,
   { db with presence := (mapVals db.presence
       (fun _ p => if staleRow p cutoff then ⟨false, p.lastScan, none⟩ else p)) })

/-- Model of `create_member` (`src/app/models.py` lines 125-141): insert the
member and an absent presence row and drop a matching pending tag, all in
one transaction; a primary-key conflict rolls everything back and
reports `False`. -/
def create_member (db : DB) (memberId name : String)
    (rowingCategory boatClass : Option String) : Bool × DB :=
  if (lookup db.members memberId).isSome || (lookup db.presence memberId).isSome then
    (false, db)
  else
    (true,
     { db with
       members := db.members ++ [(memberId, ⟨name, none, rowingCategory, boatClass, 0, none⟩)],
       presence := db.presence ++ [(memberId, ⟨false, none, none⟩)],
       pendingTags := db.pendingTags.filter (fun t => !(t == memberId)) })

/-- Model of `add_pending_tag` (`src/app/models.py` lines 96-107): insert the
identifier; the table's primary-key constraint turns a duplicate insert
into an `IntegrityError`, caught and reported as `False` with no row
added. -/
def add_pending_tag (db : DB) (tagId : String) : Bool × DB :=
  if db.pendingTags.contains tagId then (false, db)
  else (true, { db with pendingTags := db.pendingTags ++ [tagId] })

/-- Model of `repair_presence` (`src/app/models.py` lines 84-93): insert a default
absent presence row for every member that lacks one. -/
def repair_presence (db : DB) : DB :=
  { db with presence := db.presence ++
      ((db.members.filter (fun r => (lookup db.presence r.1).isNone)).map
        (fun r => (r.1, (⟨false, none, none⟩ : PresenceRow)))) }

/-- The `last_scan_info` record of `src/app/rfid_scanner.py`. -/
structure ScanInfo where
  tagId : Option String
  memberName : Option String
  action : Option String
  timestamp : Option Int
  isNewRegistration : Bool
deriving Repr, DecidableEq

/-- In-memory scanner state: the module-level globals of
`src/app/rfid_scanner.py` (debounce map `last_scan_times`,
`last_scan_info`, `scan_history`, `registration_mode`). -/
structure ScannerState where
  lastScanTimes : List (String × Int)
  lastScanInfo : ScanInfo
  scanHistory : List ScanInfo
  registrationMode : Bool
deriving Repr, DecidableEq

/-- Model of `add_to_history` (`src/app/rfid_scanner.py` lines 66-72): insert at
the front, then truncate to `MAX_HISTORY` entries when over the bound. -/
def add_to_history (st : ScannerState) (info : ScanInfo) : ScannerState :=
  let h := info :: st.scanHistory
  { st with scanHistory := if h.length > MAX_HISTORY then h.take MAX_HISTORY else h }

/-- The debounce test of `handle_scan` (`src/app/rfid_scanner.py` line
104): reject when the tag's last accepted time is within
`DEBOUNCE_SECONDS` of `now`.  An unseen tag reads as `datetime.min`
("infinitely long ago"), hence is never rejected. -/
def debounce_reject (times : List (String × Int)) (tagId : String) (now : Int) : Bool :=
  match lookup times tagId with
  | some last => decide (now - last < DEBOUNCE_SECONDS)
  | none => false

/-- Python dict assignment `last_scan_times[tag_id] = now`. -/
def setTime (times : List (String × Int)) (tagId : String) (now : Int) :
    List (String × Int) :=
  (tagId, now) :: times.filter (fun r => !(r.1 == tagId))

/-- Model of `handle_scan` (`src/app/rfid_scanner.py` lines 94-161): debounce,
record the accepted time, then resolve the tag as a known member (toggle
presence, publish to the last-scan slot and the rolling history), a
pending tag, or an unknown tag (both only publish to the last-scan
slot). -/
def handle_scan (db : DB) (st : ScannerState) (tagId : String) (now : Int) :
    Option ToggleResult × DB × ScannerState :=
  if debounce_reject st.lastScanTimes tagId now then (none, db, st)
  else
    let st1 := { st with lastScanTimes := setTime st.lastScanTimes tagId now }
    match lookup db.members tagId with
    | some _ =>
      match toggle_presence db tagId now with
      | (some r, db1) =>
        let info : ScanInfo := ⟨some tagId, some r.name, some r.action, some now, false⟩
        (some r, db1, add_to_history { st1 with lastScanInfo := info } info)
      | (none, db1) => (none, db1, st1)
    | none =>
      if db.pendingTags.contains tagId then
        (none, db, { st1 with lastScanInfo := ⟨some tagId, none, some "pending", some now, false⟩ })
      else
        (none, db, { st1 with lastScanInfo := ⟨some tagId, none, some "unknown", some now, false⟩ })

/-- Model of `handle_registration_scan` (`src/app/rfid_scanner.py` lines
164-199).  The freshly minted identifier and the outcome of the physical
`reader.write` are parameters.  A write error is caught by the
surrounding `try` before `add_pending_tag` runs, so nothing is inserted
and `None` is returned; on a successful write the pending-tag insert's
boolean result is ignored and a "registered" result is published and
returned. -/
def handle_registration_scan (db : DB) (st : ScannerState) (newUuid : String)
    (writeOk : Bool) (now : Int) :
    Option (String × String) × DB × ScannerState :=
  if writeOk then
    let db1 := (add_pending_tag db newUuid).2
    (some (newUuid, "registered"), db1,
     { st with lastScanInfo := ⟨some newUuid, none, some "registered", some now, true⟩ })
  else (none, db, st)

/-- One ROUTE step of `scanner_loop_rfid` (`src/app/rfid_scanner.py`
lines 217-235, without the independent auto-checkout timer): in
registration mode a presented tag goes through
`handle_registration_scan` and the mode is then switched off; in normal
mode a presented tag goes through `handle_scan`; no tag means no
change. -/
def scanner_cycle (db : DB) (st : ScannerState) (readId : Option String)
    (newUuid : String) (writeOk : Bool) (now : Int) : DB × ScannerState :=
  if st.registrationMode then
    match readId with
    | some _ =>
      let r := handle_registration_scan db st newUuid writeOk now
      (r.2.1, { r.2.2 with registrationMode := false })
    | none => (db, st)
  else
    match readId with
    | some tid =>
      let r := handle_scan db st tid now
      (r.2.1, r.2.2)
    | none => (db, st)

/-- Model of `simulate_scan` (`src/app/rfid_scanner.py` lines 299-324): look the
identifier up among members, toggle on success, publish to the last-scan
slot and the history; the debounce map is never consulted or written. -/
def simulate_scan (db : DB) (st : ScannerState) (memberId : String) (now : Int) :
    Option ToggleResult × DB × ScannerState :=
  match lookup db.members memberId with
  | none => (none, db, st)
  | some _ =>
    match toggle_presence db memberId now with
    | (some r, db1) =>
      let info : ScanInfo := ⟨some memberId, some r.name, some r.action, some now, false⟩
      (some r, db1, add_to_history { st with lastScanInfo := info } info)
    | (none, db1) => (none, db1, st)

/-! ### Basic lemmas about the table operations -/

theorem lookup_mapVals {α : Type} (t : List (String × α)) (g : String → α → α)
    (k : String) : lookup (mapVals t g) k = (lookup t k).map (g k) := by
  induction t with
  | nil => rfl
  | cons r t ih =>
    by_cases h : r.1 = k
    · subst h
      simp [mapVals, lookup]
    · have hb : (r.1 == k) = false := by simp [h]
      simpa [mapVals, lookup, hb] using ih

theorem lookup_updTable_self {α : Type} (t : List (String × α)) (k : String)
    (f : α → α) : lookup (updTable t k f) k = (lookup t k).map f := by
  rw [updTable, lookup_mapVals]
  cases lookup t k <;> simp

theorem lookup_updTable_ne {α : Type} (t : List (String × α)) (k k' : String)
    (f : α → α) (h : k ≠ k') : lookup (updTable t k' f) k = lookup t k := by
  rw [updTable, lookup_mapVals]
  cases lookup t k <;> simp [h]

theorem lookup_eq_none_iff {α : Type} {t : List (String × α)} {k : String} :
    lookup t k = none ↔ ∀ r ∈ t, r.1 ≠ k := by
  induction t with
  | nil => simp [lookup]
  | cons r t ih =>
    by_cases h : r.1 = k
    · subst h
      simp [lookup]
    · have hb : (r.1 == k) = false := by simp [h]
      simp [lookup, hb, ih, h]

theorem lookup_eq_some_mem {α : Type} {t : List (String × α)} {k : String}
    {v : α} (h : lookup t k = some v) : (k, v) ∈ t := by
  induction t with
  | nil => simp [lookup] at h
  | cons r t ih =>
    by_cases hk : r.1 = k
    · subst hk
      simp [lookup] at h
      subst h
      exact List.mem_cons_self _ _
    · have hb : (r.1 == k) = false := by simp [hk]
      simp [lookup, hb] at h
      exact List.mem_cons_of_mem _ (ih h)

theorem lookup_append_of_none {α : Type} {t1 : List (String × α)}
    (t2 : List (String × α)) {k : String} (h : lookup t1 k = none) :
    lookup (t1 ++ t2) k = lookup t2 k := by
  induction t1 with
  | nil => rfl
  | cons r t ih =>
    by_cases hk : r.1 = k
    · subst hk
      simp [lookup] at h
    · have hb : (r.1 == k) = false := by simp [hk]
      simp [lookup, hb] at h ⊢
      exact ih h

theorem lookup_filter_key {α : Type} (t : List (String × α)) (f : String → Bool)
    (k : String) (hk : f k = true) :
    lookup (t.filter (fun r => f r.1)) k = lookup t k := by
  induction t with
  | nil => rfl
  | cons r t ih =>
    by_cases h : r.1 = k
    · subst h
      simp [List.filter, hk, lookup]
    · have hb : (r.1 == k) = false := by simp [h]
      cases hf : f r.1 <;> simp [List.filter, hf, lookup, hb, ih]

theorem lookup_map_const {α β : Type} (t : List (String × α)) (c : β)
    (k : String) :
    lookup (t.map (fun r => (r.1, c))) k =
      if (lookup t k).isSome then some c else none := by
  induction t with
  | nil => rfl
  | cons r t ih =>
    by_cases h : r.1 = k
    · subst h
      simp [lookup]
    · have hb : (r.1 == k) = false := by simp [h]
      simp [lookup, hb, ih]

theorem mem_mapVals {α : Type} {t : List (String × α)} {g : String → α → α}
    {r' : String × α} :
    r' ∈ mapVals t g ↔ ∃ r ∈ t, r' = (r.1, g r.1 r.2) := by
  simp [mapVals, List.mem_map, eq_comm]

/-! ### Characterization of a single toggle -/

theorem toggle_presence_checkin (db : DB) (mid : String) (m : MemberRow)
    (p : PresenceRow) (now : Int)
    (hm : lookup db.members mid = some m)
    (hp : lookup db.presence mid = some p)
    (habs : p.isPresent = false) :
    (toggle_presence db mid now).1 = some ⟨mid, m.name, m.profilePicture, true, "in"⟩ ∧
    lookup (toggle_presence db mid now).2.members mid = some m ∧
    lookup (toggle_presence db mid now).2.presence mid = some ⟨true, some now, some now⟩ := by
  refine ⟨?_, ?_, ?_⟩
  · simp [toggle_presence, hm, hp, habs]
  · simp [toggle_presence, hm, hp, habs]
  · simp [toggle_presence, hm, hp, habs, lookup_updTable_self]

theorem toggle_presence_checkout (db : DB) (mid : String) (m : MemberRow)
    (p : PresenceRow) (cIn now : Int)
    (hm : lookup db.members mid = some m)
    (hp : lookup db.presence mid = some p)
    (hpres : p.isPresent = true)
    (hci : p.checkedInAt = some cIn) :
    (toggle_presence db mid now).1 = some ⟨mid, m.name, m.profilePicture, false, "out"⟩ ∧
    lookup (toggle_presence db mid now).2.members mid =
      some { m with totalSeconds := m.totalSeconds + (now - cIn) } ∧
    lookup (toggle_presence db mid now).2.presence mid = some ⟨false, some now, none⟩ := by
  refine ⟨?_, ?_, ?_⟩
  · simp [toggle_presence, hm, hp, hpres]
  · simp [toggle_presence, hm, hp, hpres, hci, lookup_updTable_self]
  · simp [toggle_presence, hm, hp, hpres, hci, lookup_updTable_self]

/-! ### Claim theorems -/

/-- C1.  The toggle is a true flip: for a member whose presence record
shows `is_present = false`, one `toggle_presence` call at `t1` yields
present with `checked_in_at = t1`, and a second call at `t2` yields
absent with `checked_in_at = null` and `total_seconds` increased by
exactly `t2 - t1`. -/
theorem toggle_presence_true_flip (db : DB) (mid : String) (m : MemberRow)
    (p : PresenceRow) (t1 t2 : Int)
    (hm : lookup db.members mid = some m)
    (hp : lookup db.presence mid = some p)
    (habs : p.isPresent = false) :
    (toggle_presence db mid t1).1 = some ⟨mid, m.name, m.profilePicture, true, "in"⟩ ∧
    lookup (toggle_presence db mid t1).2.presence mid = some ⟨true, some t1, some t1⟩ ∧
    (toggle_presence (toggle_presence db mid t1).2 mid t2).1 =
      some ⟨mid, m.name, m.profilePicture, false, "out"⟩ ∧
    lookup (toggle_presence (toggle_presence db mid t1).2 mid t2).2.presence mid =
      some ⟨false, some t2, none⟩ ∧
    lookup (toggle_presence (toggle_presence db mid t1).2 mid t2).2.members mid =
      some { m with totalSeconds := m.totalSeconds + (t2 - t1) } := by
  obtain ⟨h1, hm1, hp1⟩ := toggle_presence_checkin db mid m p t1 hm hp habs
  obtain ⟨h2, hm2, hp2⟩ :=
    toggle_presence_checkout (toggle_presence db mid t1).2 mid m
      ⟨true, some t1, some t1⟩ t1 t2 hm1 hp1 rfl rfl
  exact ⟨h1, hp1, h2, hp2, hm2⟩

/-- Concrete witness store for the claim theorems: one member, absent. -/
def wDB : DB :=
  { members := [("m1", ⟨"Alice", none, none, none, 40, none⟩)],
    presence := [("m1", ⟨false, none, none⟩)],
    scanLog := [],
    pendingTags := ["p1"] }

theorem toggle_presence_true_flip_witness :
    (toggle_presence wDB "m1" 10).1 = some ⟨"m1", "Alice", none, true, "in"⟩ ∧
    lookup (toggle_presence wDB "m1" 10).2.presence "m1" = some ⟨true, some 10, some 10⟩ ∧
    (toggle_presence (toggle_presence wDB "m1" 10).2 "m1" 17).1 =
      some ⟨"m1", "Alice", none, false, "out"⟩ ∧
    lookup (toggle_presence (toggle_presence wDB "m1" 10).2 "m1" 17).2.presence "m1" =
      some ⟨false, some 17, none⟩ ∧
    lookup (toggle_presence (toggle_presence wDB "m1" 10).2 "m1" 17).2.members "m1" =
      some ⟨"Alice", none, none, none, 40 + (17 - 10), none⟩ :=
  toggle_presence_true_flip wDB "m1" ⟨"Alice", none, none, none, 40, none⟩
    ⟨false, none, none⟩ 10 17 (by decide) (by decide) (by decide)

/-- The presence-record invariant: `checked_in_at` is non-null iff
`is_present` is true. -/
def rowInv (p : PresenceRow) : Prop := p.checkedInAt.isSome = p.isPresent

/-- The invariant holds of every row of the presence table. -/
def presenceInv (db : DB) : Prop := ∀ r ∈ db.presence, rowInv r.2

theorem rowInv_checkin (now : Int) : rowInv ⟨true, some now, some now⟩ := rfl

theorem rowInv_checkout (ls : Option Int) : rowInv ⟨false, ls, none⟩ := rfl

/-- Rows of the presence table after a toggle: a row keyed by the
toggled member was overwritten with an invariant-satisfying value
(provided the member exists), every other row is unchanged. -/
theorem toggle_presence_presence_rows (db : DB) (mid : String) (now : Int)
    (r : String × PresenceRow)
    (hr : r ∈ (toggle_presence db mid now).2.presence) :
    (r ∈ db.presence ∧ (lookup db.members mid = none ∨ r.1 ≠ mid)) ∨ rowInv r.2 := by
  rcases hmm : lookup db.members mid with _ | m
  · rcases hpp : lookup db.presence mid with _ | p <;>
      · simp only [toggle_presence, hmm, hpp] at hr
        exact Or.inl ⟨hr, Or.inl rfl⟩
  rcases hpp : lookup db.presence mid with _ | p
  · simp only [toggle_presence, hmm, hpp] at hr
    refine Or.inl ⟨hr, Or.inr ?_⟩
    exact (lookup_eq_none_iff.mp hpp) r hr
  have key : ∀ g : PresenceRow → PresenceRow, (∀ v, rowInv (g v)) →
      ∀ t : List (String × PresenceRow), r ∈ updTable t mid g →
      (r ∈ t ∧ r.1 ≠ mid) ∨ rowInv r.2 := by
    intro g hg t hmem
    obtain ⟨r0, hr0, hre⟩ := mem_mapVals.mp hmem
    by_cases hk : r0.1 == mid
    · right
      rw [hre]
      simpa [hk] using hg r0.2
    · left
      constructor
      · simpa [hre, hk] using hr0
      · subst hre
        simpa using hk
  cases hip : p.isPresent
  · have hr' : r ∈ updTable db.presence mid
        (fun _ => (⟨true, some now, some now⟩ : PresenceRow)) := by
      simpa [toggle_presence, hmm, hpp, hip] using hr
    rcases key _ (fun _ => rowInv_checkin now) _ hr' with ⟨h1, h2⟩ | h
    · exact Or.inl ⟨h1, Or.inr h2⟩
    · exact Or.inr h
  · have hr' : r ∈ updTable db.presence mid
        (fun _ => (⟨false, some now, none⟩ : PresenceRow)) := by
      rcases hci : p.checkedInAt with _ | cIn <;>
        simpa [toggle_presence, hmm, hpp, hip, hci] using hr
    rcases key _ (fun _ => rowInv_checkout (some now)) _ hr' with ⟨h1, h2⟩ | h
    · exact Or.inl ⟨h1, Or.inr h2⟩
    · exact Or.inr h

/-- C2.  Each table-writing core operation leaves every presence row
satisfying the `checked_in_at`-iff-`is_present` invariant: toggling,
the stale sweep and member creation preserve it, and a toggle on a
member whose own row is corrupted (in particular present with a null
`checked_in_at`) restores it as long as the other rows satisfy it. -/
theorem presence_invariant_ops (db : DB) (mid nm : String) (now : Int)
    (rc bc : Option String) :
    (presenceInv db → presenceInv (toggle_presence db mid now).2) ∧
    (presenceInv db → presenceInv (auto_checkout_stale db now).2) ∧
    (presenceInv db → presenceInv (create_member db mid nm rc bc).2) ∧
    ((∀ r ∈ db.presence, r.1 ≠ mid → rowInv r.2) → (lookup db.members mid).isSome →
      presenceInv (toggle_presence db mid now).2) := by
  refine ⟨?_, ?_, ?_, ?_⟩
  · intro hinv r hr
    rcases toggle_presence_presence_rows db mid now r hr with ⟨h1, _⟩ | h
    · exact hinv r h1
    · exact h
  · intro hinv r hr
    simp only [auto_checkout_stale] at hr
    obtain ⟨r0, hr0, hre⟩ := mem_mapVals.mp hr
    rw [hre]
    by_cases hs : staleRow r0.2 (now - AUTO_CHECKOUT_HOURS * 3600)
    · simp only [hs, if_true]
      exact rowInv_checkout _
    · simp only [hs, if_false]
      exact hinv r0 hr0
  · intro hinv r hr
    cases hc : (lookup db.members mid).isSome || (lookup db.presence mid).isSome with
    | true =>
      simp only [create_member, hc, if_true] at hr
      exact hinv r hr
    | false =>
      simp only [create_member, hc, Bool.false_eq_true, if_false] at hr
      rcases List.mem_append.mp hr with hr | hr
      · exact hinv r hr
      · rw [List.mem_singleton.mp hr]
        exact rowInv_checkout none
  · intro hothers hmem r hr
    rcases toggle_presence_presence_rows db mid now r hr with ⟨h1, h2⟩ | h
    · rcases h2 with h2 | h2
      · rw [h2] at hmem
        simp at hmem
      · exact hothers r h1 h2
    · exact h

/-- Concrete witness store with one present member, one absent member
and one corrupted row (present with a null `checked_in_at`). -/
def wDB2 : DB :=
  { members := [("m1", ⟨"Alice", none, none, none, 0, none⟩),
                ("m2", ⟨"Bob", none, none, none, 3, none⟩)],
    presence := [("m1", ⟨true, some 2, some 2⟩), ("m2", ⟨false, some 1, none⟩)],
    scanLog := [],
    pendingTags := [] }

/-- Concrete witness store whose only presence row is corrupted:
present but with `checked_in_at = null`. -/
def wDB2c : DB :=
  { members := [("m1", ⟨"Alice", none, none, none, 0, none⟩)],
    presence := [("m1", ⟨true, some 2, none⟩)],
    scanLog := [],
    pendingTags := [] }

theorem presence_invariant_ops_witness :
    presenceInv (toggle_presence wDB2 "m1" 9).2 ∧
    presenceInv (auto_checkout_stale wDB2 90000).2 ∧
    presenceInv (create_member wDB2 "m3" "Cara" none none).2 ∧
    presenceInv (toggle_presence wDB2c "m1" 9).2 := by
  have hinv : presenceInv wDB2 := by
    intro r hr
    simp only [wDB2, List.mem_cons, List.not_mem_nil, or_false] at hr
    rcases hr with hr | hr <;> · rw [hr]; rfl
  refine ⟨(presence_invariant_ops wDB2 "m1" "Cara" 9 none none).1 hinv,
          (presence_invariant_ops wDB2 "m3" "Cara" 90000 none none).2.1 hinv,
          (presence_invariant_ops wDB2 "m3" "Cara" 9 none none).2.2.1 hinv,
          (presence_invariant_ops wDB2c "m1" "Cara" 9 none none).2.2.2 ?_ (by decide)⟩
  intro r hr hne
  simp only [wDB2c, List.mem_cons, List.not_mem_nil, or_false] at hr
  rw [hr] at hne
  simp at hne

/-- Concrete store for the C3 counterexample: one member, present since
time 0, totalling 0 accumulated seconds. -/
def wDB3 : DB :=
  { members := [("m1", ⟨"Alice", none, none, none, 0, none⟩)],
    presence := [("m1", ⟨true, some 0, some 0⟩)],
    scanLog := [],
    pendingTags := [] }

/-- C3 counterexample.  At time 100000, member `m1` (checked in at time
0, so stale: `0 < 100000 - 5*3600`) is swept out, yet `total_seconds`
stays 0 instead of increasing by the 100000-second session: the sweep
does not accumulate session seconds. -/
theorem auto_checkout_stale_drops_session_seconds :
    (auto_checkout_stale wDB3 100000).1 = 1 ∧
    lookup (auto_checkout_stale wDB3 100000).2.presence "m1" =
      some ⟨false, some 0, none⟩ ∧
    lookup (auto_checkout_stale wDB3 100000).2.members "m1" =
      some ⟨"Alice", none, none, none, 0, none⟩ := by
  decide

/-- C3 amended.  The sweep finds exactly the presence rows with
`is_present = true` and `checked_in_at` older than
`now - AUTO_CHECKOUT_HOURS`, clears `is_present` and `checked_in_at` on
each (leaving `last_scan` alone), returns their count, writes no scan
log entry — and, unlike an "out" toggle, leaves the members table
(hence `total_seconds`) entirely unchanged. -/
theorem auto_checkout_stale_behavior (db : DB) (now : Int) (mid : String)
    (p : PresenceRow) (hp : lookup db.presence mid = some p) :
    (auto_checkout_stale db now).1 =
      (db.presence.filter
        (fun r => staleRow r.2 (now - AUTO_CHECKOUT_HOURS * 3600))).length ∧
    (auto_checkout_stale db now).2.members = db.members ∧
    (auto_checkout_stale db now).2.scanLog = db.scanLog ∧
    lookup (auto_checkout_stale db now).2.presence mid =
      some (if staleRow p (now - AUTO_CHECKOUT_HOURS * 3600)
            then ⟨false, p.lastScan, none⟩ else p) := by
  refine ⟨rfl, rfl, rfl, ?_⟩
  simp [auto_checkout_stale, lookup_mapVals, hp]

theorem auto_checkout_stale_behavior_witness :
    (auto_checkout_stale wDB3 100000).1 =
      (wDB3.presence.filter
        (fun r => staleRow r.2 (100000 - AUTO_CHECKOUT_HOURS * 3600))).length ∧
    (auto_checkout_stale wDB3 100000).2.members = wDB3.members ∧
    (auto_checkout_stale wDB3 100000).2.scanLog = wDB3.scanLog ∧
    lookup (auto_checkout_stale wDB3 100000).2.presence "m1" =
      some (if staleRow ⟨true, some 0, some 0⟩ (100000 - AUTO_CHECKOUT_HOURS * 3600)
            then ⟨false, some 0, none⟩ else ⟨true, some 0, some 0⟩) :=
  auto_checkout_stale_behavior wDB3 100000 "m1" ⟨true, some 0, some 0⟩ (by decide)

/-- Concrete store for C4: member `m1` exists but has no presence
row. -/
def wDB4 : DB :=
  { members := [("m1", ⟨"Alice", none, none, none, 0, none⟩)],
    presence := [],
    scanLog := [],
    pendingTags := [] }

/-- C4 counterexample.  Toggling a member whose presence row is missing
does not create a default absent presence record: the call returns
`None` and the presence table stays empty (the repair lives in
`repair_presence`, which only `init_db` invokes). -/
theorem toggle_missing_presence_no_repair :
    toggle_presence wDB4 "m1" 5 = (none, wDB4) ∧
    (toggle_presence wDB4 "m1" 5).2.presence = [] := by
  decide

/-- C4 amended.  A toggle on a member id that exists in the members
table but has no presence row does not crash: it returns `None` and
leaves the store untouched; the creation of the default absent presence
record is instead performed by `repair_presence` (invoked by
`init_db`), which gives every such member the row
`(is_present = false, last_scan = null, checked_in_at = null)`. -/
theorem toggle_missing_presence_behavior (db : DB) (mid : String)
    (m : MemberRow) (now : Int)
    (hm : lookup db.members mid = some m)
    (hp : lookup db.presence mid = none) :
    toggle_presence db mid now = (none, db) ∧
    lookup (repair_presence db).presence mid = some ⟨false, none, none⟩ := by
  constructor
  · simp [toggle_presence, hm, hp]
  · rw [repair_presence]
    show lookup (db.presence ++ _) mid = _
    rw [lookup_append_of_none _ hp, lookup_map_const]
    have hf : ((lookup db.presence mid).isNone : Bool) = true := by
      rw [hp]
      rfl
    rw [lookup_filter_key db.members (fun s => (lookup db.presence s).isNone) mid hf, hm]
    rfl

theorem toggle_missing_presence_behavior_witness :
    toggle_presence wDB4 "m1" 5 = (none, wDB4) ∧
    lookup (repair_presence wDB4).presence "m1" = some ⟨false, none, none⟩ :=
  toggle_missing_presence_behavior wDB4 "m1" ⟨"Alice", none, none, none, 0, none⟩ 5
    (by decide) (by decide)

/-- Concrete store for C5: the identifier `u1` is already a pending
tag. -/
def wDB5 : DB :=
  { members := [], presence := [], scanLog := [], pendingTags := ["u1"] }

/-- An idle scanner state used as a starting point by several
witnesses. -/
def wST : ScannerState :=
  { lastScanTimes := [],
    lastScanInfo := ⟨none, none, none, none, false⟩,
    scanHistory := [],
    registrationMode := false }

/-- C5 counterexample.  Minting the already-pending identifier `u1`
with a successful tag write: `add_pending_tag` reports the conflict as
`False`, yet `handle_registration_scan` returns the success value
`("u1", "registered")` and publishes the scan as "registered" — the
conflict is not treated as a failed registration. -/
theorem registration_collision_reported_as_success :
    (add_pending_tag wDB5 "u1").1 = false ∧
    (handle_registration_scan wDB5 wST "u1" true 0).1 = some ("u1", "registered") ∧
    (handle_registration_scan wDB5 wST "u1" true 0).2.2.lastScanInfo.action =
      some "registered" := by
  decide

/-- C5 amended.  The store does prevent the collision structurally: on
a conflicting identifier `add_pending_tag` does not raise, reports
`False` and inserts nothing.  But `handle_registration_scan` ignores
that boolean: with a successful tag write it reports the registration
as successful (`"registered"`) even though the pending-tag table is
unchanged. -/
theorem add_pending_tag_conflict_behavior (db : DB) (st : ScannerState)
    (tagId : String) (now : Int)
    (h : db.pendingTags.contains tagId = true) :
    add_pending_tag db tagId = (false, db) ∧
    (handle_registration_scan db st tagId true now).1 = some (tagId, "registered") ∧
    (handle_registration_scan db st tagId true now).2.1 = db := by
  have h' : tagId ∈ db.pendingTags := by
    simpa using h
  refine ⟨?_, ?_, ?_⟩
  · simp [add_pending_tag, h']
  · simp [handle_registration_scan]
  · simp [handle_registration_scan, add_pending_tag, h']

theorem add_pending_tag_conflict_behavior_witness :
    add_pending_tag wDB5 "u1" = (false, wDB5) ∧
    (handle_registration_scan wDB5 wST "u1" true 3).1 = some ("u1", "registered") ∧
    (handle_registration_scan wDB5 wST "u1" true 3).2.1 = wDB5 :=
  add_pending_tag_conflict_behavior wDB5 wST "u1" 3 (by decide)

theorem lookup_setTime_self (times : List (String × Int)) (k : String) (now : Int) :
    lookup (setTime times k now) k = some now := by
  simp [setTime, lookup]

/-- Every branch of an accepted scan carries the updated debounce map
through unchanged. -/
theorem handle_scan_lastScanTimes (db : DB) (st : ScannerState) (tagId : String)
    (now : Int) (hacc : debounce_reject st.lastScanTimes tagId now = false) :
    (handle_scan db st tagId now).2.2.lastScanTimes =
      setTime st.lastScanTimes tagId now := by
  simp only [handle_scan, hacc, Bool.false_eq_true, if_false]
  rcases hm : lookup db.members tagId with _ | m
  · simp only []
    by_cases hpend : tagId ∈ db.pendingTags <;> simp [hpend]
  · rcases htog : toggle_presence db tagId now with ⟨r?, db1⟩
    rcases r? with _ | r <;> simp [htog, add_to_history]

/-- C6.  The debounce filter accepts a scan iff the tag is unseen
(defaulting to "infinitely long ago") or at least `DEBOUNCE_SECONDS`
have elapsed since its last accepted scan; a rejected scan changes
nothing at all (no member lookup, no toggle, no timestamp update),
while an accepted scan records `now` as the tag's last-accepted
timestamp. -/
theorem debounce_filter_spec (db : DB) (st : ScannerState) (tagId : String)
    (now : Int) :
    (debounce_reject st.lastScanTimes tagId now = false ↔
      ∀ last, lookup st.lastScanTimes tagId = some last →
        DEBOUNCE_SECONDS ≤ now - last) ∧
    (debounce_reject st.lastScanTimes tagId now = true →
      handle_scan db st tagId now = (none, db, st)) ∧
    (debounce_reject st.lastScanTimes tagId now = false →
      lookup (handle_scan db st tagId now).2.2.lastScanTimes tagId = some now) := by
  refine ⟨?_, ?_, ?_⟩
  · rcases hl : lookup st.lastScanTimes tagId with _ | last
    · simp [debounce_reject, hl]
    · simp [debounce_reject, hl, not_lt]
  · intro hrej
    simp [handle_scan, hrej]
  · intro hacc
    rw [handle_scan_lastScanTimes db st tagId now hacc]
    exact lookup_setTime_self st.lastScanTimes tagId now

/-- Scanner state for the C6 witness: tag `m1` last accepted at time
100. -/
def wST6 : ScannerState :=
  { lastScanTimes := [("m1", 100)],
    lastScanInfo := ⟨none, none, none, none, false⟩,
    scanHistory := [],
    registrationMode := false }

theorem debounce_filter_spec_witness :
    (handle_scan wDB wST6 "m1" 102 = (none, wDB, wST6)) ∧
    lookup (handle_scan wDB wST6 "m1" 105).2.2.lastScanTimes "m1" = some 105 :=
  ⟨(debounce_filter_spec wDB wST6 "m1" 102).2.1 (by decide),
   (debounce_filter_spec wDB wST6 "m1" 105).2.2 (by decide)⟩

/-- C7.  While registration mode is active and a tag is presented, the
poll cycle performs at most one registration: the mode is switched back
to normal afterwards whether or not the tag write succeeded; a failed
device write leaves the whole store (in particular the pending-tag
table) untouched and the attempt reports `None`; a successful write
inserts the minted identifier as a pending tag (unless the store's
uniqueness constraint rejects it). -/
theorem registration_single_shot (db : DB) (st : ScannerState)
    (tid newUuid : String) (writeOk : Bool) (now : Int)
    (hmode : st.registrationMode = true) :
    (scanner_cycle db st (some tid) newUuid writeOk now).2.registrationMode = false ∧
    (writeOk = false →
      scanner_cycle db st (some tid) newUuid writeOk now =
        (db, { st with registrationMode := false }) ∧
      (handle_registration_scan db st newUuid writeOk now).1 = none) ∧
    (writeOk = true →
      (scanner_cycle db st (some tid) newUuid writeOk now).1.pendingTags =
        (if newUuid ∈ db.pendingTags then db.pendingTags
         else db.pendingTags ++ [newUuid])) := by
  refine ⟨?_, ?_, ?_⟩
  · cases writeOk <;> simp [scanner_cycle, hmode, handle_registration_scan]
  · intro hw
    subst hw
    simp [scanner_cycle, hmode, handle_registration_scan]
  · intro hw
    subst hw
    by_cases hpend : newUuid ∈ db.pendingTags <;>
      simp [scanner_cycle, hmode, handle_registration_scan, add_pending_tag, hpend]

/-- Scanner state in registration mode, for the C7 witness. -/
def wST7 : ScannerState :=
  { lastScanTimes := [],
    lastScanInfo := ⟨none, none, none, none, false⟩,
    scanHistory := [],
    registrationMode := true }

theorem registration_single_shot_witness :
    ((scanner_cycle wDB wST7 (some "t9") "u2" true 0).2.registrationMode = false ∧
      (scanner_cycle wDB wST7 (some "t9") "u2" true 0).1.pendingTags =
        ["p1", "u2"]) ∧
    ((scanner_cycle wDB wST7 (some "t9") "u2" false 0).2.registrationMode = false ∧
      scanner_cycle wDB wST7 (some "t9") "u2" false 0 =
        (wDB, { wST7 with registrationMode := false })) :=
  ⟨⟨(registration_single_shot wDB wST7 "t9" "u2" true 0 (by decide)).1,
    by
      rw [(registration_single_shot wDB wST7 "t9" "u2" true 0 (by decide)).2.2 rfl]
      decide⟩,
   ⟨(registration_single_shot wDB wST7 "t9" "u2" false 0 (by decide)).1,
    ((registration_single_shot wDB wST7 "t9" "u2" false 0 (by decide)).2.1 rfl).1⟩⟩

theorem toggle_presence_some (db : DB) (mid : String) (m : MemberRow)
    (p : PresenceRow) (now : Int)
    (hm : lookup db.members mid = some m)
    (hp : lookup db.presence mid = some p) :
    (toggle_presence db mid now).1 =
      some ⟨mid, m.name, m.profilePicture, !p.isPresent,
            if p.isPresent then "out" else "in"⟩ := by
  cases hip : p.isPresent <;> simp [toggle_presence, hm, hp, hip]

theorem add_to_history_spec (st : ScannerState) (info : ScanInfo) :
    (add_to_history st info).scanHistory =
      (info :: st.scanHistory).take MAX_HISTORY := by
  simp only [add_to_history]
  by_cases h : (info :: st.scanHistory).length > MAX_HISTORY
  · simp [h]
  · push_neg at h
    simp [Nat.not_lt.mpr h, List.take_of_length_le h]

/-- C8.  Every resolution of a debounce-passing scan writes the shared
last-scan slot (tag id and timestamp of the scan), but only a
known-member toggle is inserted into the rolling history — at the
front, newest first — while pending/unknown resolutions leave the
history alone; the history never exceeds `MAX_HISTORY = 10` entries.
(Stated under the structural invariant that every member id has a
presence row, which member creation establishes and `repair_presence`
restores.) -/
theorem scan_resolution_cache_history (db : DB) (st : ScannerState)
    (tagId : String) (now : Int)
    (hwf : ∀ mid, (lookup db.members mid).isSome → (lookup db.presence mid).isSome)
    (hacc : debounce_reject st.lastScanTimes tagId now = false)
    (hlen : st.scanHistory.length ≤ MAX_HISTORY) :
    ((handle_scan db st tagId now).2.2.lastScanInfo.tagId = some tagId ∧
     (handle_scan db st tagId now).2.2.lastScanInfo.timestamp = some now) ∧
    ((lookup db.members tagId).isSome →
      (handle_scan db st tagId now).2.2.scanHistory =
        ((handle_scan db st tagId now).2.2.lastScanInfo ::
          st.scanHistory).take MAX_HISTORY) ∧
    (lookup db.members tagId = none →
      (handle_scan db st tagId now).2.2.scanHistory = st.scanHistory) ∧
    (handle_scan db st tagId now).2.2.scanHistory.length ≤ MAX_HISTORY := by
  rcases hm : lookup db.members tagId with _ | m
  · have hbranch :
        (handle_scan db st tagId now).2.2.lastScanInfo =
          ⟨some tagId, none,
           some (if tagId ∈ db.pendingTags then "pending" else "unknown"),
           some now, false⟩ ∧
        (handle_scan db st tagId now).2.2.scanHistory = st.scanHistory := by
      by_cases hpend : tagId ∈ db.pendingTags <;>
        simp [handle_scan, hacc, hm, hpend]
    refine ⟨⟨?_, ?_⟩, ?_, fun _ => hbranch.2, ?_⟩
    · rw [hbranch.1]
    · rw [hbranch.1]
    · intro hsome
      simp at hsome
    · rw [hbranch.2]
      exact hlen
  · have hpsome : (lookup db.presence tagId).isSome := by
      apply hwf
      rw [hm]
      rfl
    rcases hp : lookup db.presence tagId with _ | p
    · rw [hp] at hpsome
      simp at hpsome
    rcases htog : toggle_presence db tagId now with ⟨r?, db1⟩
    have hr : r? = some ⟨tagId, m.name, m.profilePicture, !p.isPresent,
        if p.isPresent then "out" else "in"⟩ := by
      rw [← toggle_presence_some db tagId m p now hm hp, htog]
    subst hr
    have hstate :
        (handle_scan db st tagId now).2.2 =
          add_to_history
            { st with
              lastScanTimes := setTime st.lastScanTimes tagId now,
              lastScanInfo :=
                ⟨some tagId, some m.name,
                 some (if p.isPresent then "out" else "in"), some now, false⟩ }
            ⟨some tagId, some m.name,
             some (if p.isPresent then "out" else "in"), some now, false⟩ := by
      simp [handle_scan, hacc, hm, htog]
    rw [hstate]
    have hinfo : ∀ st' info, (add_to_history st' info).lastScanInfo = st'.lastScanInfo := by
      intro st' info
      simp [add_to_history]
    refine ⟨⟨?_, ?_⟩, fun _ => ?_, ?_, ?_⟩
    · rw [hinfo]
    · rw [hinfo]
    · rw [hinfo, add_to_history_spec]
    · intro hnone
      simp at hnone
    · rw [add_to_history_spec]
      simp [List.length_take_le]

/-- Scanner state with a full 10-entry history, for the C8 witness. -/
def wST8 : ScannerState :=
  { lastScanTimes := [],
    lastScanInfo := ⟨none, none, none, none, false⟩,
    scanHistory := List.replicate 10 ⟨some "x", none, some "unknown", some 1, false⟩,
    registrationMode := false }

theorem scan_resolution_cache_history_witness :
    ((handle_scan wDB wST8 "m1" 50).2.2.lastScanInfo.tagId = some "m1" ∧
     (handle_scan wDB wST8 "m1" 50).2.2.lastScanInfo.timestamp = some 50) ∧
    (handle_scan wDB wST8 "m1" 50).2.2.scanHistory =
      ((handle_scan wDB wST8 "m1" 50).2.2.lastScanInfo ::
        wST8.scanHistory).take MAX_HISTORY ∧
    (handle_scan wDB wST8 "m1" 50).2.2.scanHistory.length ≤ MAX_HISTORY := by
  have hwf : ∀ mid, (lookup wDB.members mid).isSome = true →
      (lookup wDB.presence mid).isSome = true := by
    intro mid h
    by_cases hk : ("m1" : String) == mid
    · simp [wDB, lookup, hk]
    · simp [wDB, lookup, hk] at h
  have h := scan_resolution_cache_history wDB wST8 "m1" 50 hwf (by decide) (by decide)
  exact ⟨h.1, h.2.1 (by decide), h.2.2.2⟩

/-- C9.  A debounce-passing scan of a tag that is neither a member id
nor a pending tag returns `None`, leaves the whole persistent store —
members, presence, scan log, pending tags — untouched, surfaces the
resolution as "unknown" in the last-scan slot, and leaves the rolling
history alone.  (The embedded `handle_scan` is a total function, so the
branch cannot throw.) -/
theorem unknown_tag_no_mutation (db : DB) (st : ScannerState) (tagId : String)
    (now : Int)
    (hm : lookup db.members tagId = none)
    (hpend : tagId ∉ db.pendingTags)
    (hacc : debounce_reject st.lastScanTimes tagId now = false) :
    (handle_scan db st tagId now).1 = none ∧
    (handle_scan db st tagId now).2.1 = db ∧
    (handle_scan db st tagId now).2.2.lastScanInfo =
      ⟨some tagId, none, some "unknown", some now, false⟩ ∧
    (handle_scan db st tagId now).2.2.scanHistory = st.scanHistory := by
  refine ⟨?_, ?_, ?_, ?_⟩ <;> simp [handle_scan, hacc, hm, hpend]

theorem unknown_tag_no_mutation_witness :
    (handle_scan wDB wST "zz" 7).1 = none ∧
    (handle_scan wDB wST "zz" 7).2.1 = wDB ∧
    (handle_scan wDB wST "zz" 7).2.2.lastScanInfo =
      ⟨some "zz", none, some "unknown", some 7, false⟩ ∧
    (handle_scan wDB wST "zz" 7).2.2.scanHistory = wST.scanHistory :=
  unknown_tag_no_mutation wDB wST "zz" 7 (by decide) (by decide) (by decide)

/-- C10.  For an identifier that is not a member id, `simulate_scan`
returns `None` and leaves the store and the whole scanner state (cache,
history, debounce map) unchanged; for every identifier it reads and
writes no debounce timestamp — its outcome is the same under any
debounce map — so a known member with a presence row is toggled even
within `DEBOUNCE_SECONDS` of a previously accepted scan of the same
tag. -/
theorem simulate_scan_bypasses_debounce (db : DB) (st : ScannerState)
    (memberId : String) (now : Int) :
    (lookup db.members memberId = none →
      simulate_scan db st memberId now = (none, db, st)) ∧
    (simulate_scan db st memberId now).2.2.lastScanTimes = st.lastScanTimes ∧
    (∀ ts : List (String × Int),
      (simulate_scan db { st with lastScanTimes := ts } memberId now).1 =
        (simulate_scan db st memberId now).1 ∧
      (simulate_scan db { st with lastScanTimes := ts } memberId now).2.1 =
        (simulate_scan db st memberId now).2.1) ∧
    (∀ m p, lookup db.members memberId = some m →
      lookup db.presence memberId = some p →
      (simulate_scan db st memberId now).1 =
        some ⟨memberId, m.name, m.profilePicture, !p.isPresent,
              if p.isPresent then "out" else "in"⟩) := by
  refine ⟨?_, ?_, ?_, ?_⟩
  · intro hm
    simp [simulate_scan, hm]
  · rcases hm : lookup db.members memberId with _ | m
    · simp [simulate_scan, hm]
    · rcases htog : toggle_presence db memberId now with ⟨r?, db1⟩
      rcases r? with _ | r <;> simp [simulate_scan, hm, htog, add_to_history]
  · intro ts
    rcases hm : lookup db.members memberId with _ | m
    · simp [simulate_scan, hm]
    · rcases htog : toggle_presence db memberId now with ⟨r?, db1⟩
      rcases r? with _ | r <;> simp [simulate_scan, hm, htog]
  · intro m p hm hp
    rcases htog : toggle_presence db memberId now with ⟨r?, db1⟩
    have hr : r? = some ⟨memberId, m.name, m.profilePicture, !p.isPresent,
        if p.isPresent then "out" else "in"⟩ := by
      rw [← toggle_presence_some db memberId m p now hm hp, htog]
    subst hr
    simp [simulate_scan, hm, htog]

/-- Scanner state for the C10 witness: member `m1` was accepted at time
100, so a real scan at time 102 would be debounced. -/
def wST10 : ScannerState :=
  { lastScanTimes := [("m1", 100)],
    lastScanInfo := ⟨none, none, none, none, false⟩,
    scanHistory := [],
    registrationMode := false }

theorem simulate_scan_bypasses_debounce_witness :
    simulate_scan wDB wST10 "zz" 102 = (none, wDB, wST10) ∧
    (simulate_scan wDB wST10 "m1" 102).1 =
      some ⟨"m1", "Alice", none, !false, if false then "out" else "in"⟩ :=
  ⟨(simulate_scan_bypasses_debounce wDB wST10 "zz" 102).1 (by decide),
   (simulate_scan_bypasses_debounce wDB wST10 "m1" 102).2.2.2
     ⟨"Alice", none, none, none, 40, none⟩ ⟨false, none, none⟩
     (by decide) (by decide)⟩

end ErgRoom
